import Mathlib

/-!
# Verification of the bilingual PDF receipt/report renderer

Shallow embedding of the PDF generation code of the catering-management
repository (`generateOrdersPDF`, `generateOrderReceiptPDF`,
`downloadOrderReceipt` and their helpers).  The mutable jsPDF document is
modelled as a list of drawing operations (`Op`); the running vertical cursor
and page counter are threaded explicitly (`GenState`).  The jsPDF library
boundary (`splitTextToSize`, page geometry) is modelled by an explicit
text-measuring oracle parameter and exact A4 page dimensions in millimetres.
-/

namespace Catering

/-- Text alignment option, as accepted by the `addText` helpers. -/
inductive Align
  | left
  | center
  | right
deriving DecidableEq, Repr

/-- Layout direction derived from script classification. -/
inductive Direction
  | ltr
  | rtl
deriving DecidableEq, Repr

/-- Font weight option of the `addText` helpers (`'normal' | 'bold'`). -/
inductive FontStyle
  | normal
  | bold
deriving DecidableEq, Repr

/-- An embedded Arabic-capable font asset: name plus base64 payload. -/
structure FontAsset where
  name : String
  base64 : String
deriving DecidableEq, Repr

/-- Modelled from the spec: `containsArabic` of the `arabic-fonts` module is
not under `src/` (only its callers are).  The spec: true iff the string
contains at least one code point in the Arabic Unicode block U+0600–U+06FF. -/
def containsArabic (s : String) : Bool :=
  s.data.any fun c => decide (0x0600 ≤ c.toNat ∧ c.toNat ≤ 0x06FF)

/-- Modelled from the spec: `getTextDirection` of the missing `arabic-fonts`
module returns `rtl` iff `containsArabic` is true, else `ltr`. -/
def getTextDirection (s : String) : Direction :=
  if containsArabic s then .rtl else .ltr

/-- Modelled from the spec: `hasArabicFonts` of the missing `arabic-fonts`
module — the registry is a compiled-in constant list (possibly empty); here
the constant is a parameter. -/
def hasArabicFonts (fonts : List FontAsset) : Bool :=
  !fonts.isEmpty

/-- Modelled from the spec: `getAvailableArabicFont` returns the first
available embedded font, if any. -/
def getAvailableArabicFont (fonts : List FontAsset) : Option FontAsset :=
  fonts.head?

/-- JavaScript `a || b` for an optional string field: `undefined` and the
empty string are falsy. -/
def jsOr (v : Option String) (d : String) : String :=
  match v with
  | some s => if s = "" then d else s
  | none => d

/-- JavaScript truthiness of an optional string field. -/
def jsTruthy (v : Option String) : Bool :=
  match v with
  | some s => !(s == "")
  | none => false

/-- Numeric value of a list of decimal digit characters. -/
def digitsToNat (ds : List Char) : ℕ :=
  ds.foldl (fun a c => 10 * a + (c.toNat - 48)) 0

/-- A decimal number as parsed by `parseFloat`: the exact value
`num / 10 ^ pow`, kept unnormalized so that all arithmetic stays in `ℤ`. -/
structure JsNumber where
  num : ℤ
  pow : ℕ
deriving DecidableEq, Repr

/-- The rational value a `JsNumber` denotes. -/
def JsNumber.toRat (v : JsNumber) : ℚ := (v.num : ℚ) / (10 : ℚ) ^ v.pow

/-- Model of the JavaScript builtin `parseFloat` on the decimal forms used by
this code base: optional leading whitespace, optional sign, integer digits,
optional fractional digits.  `none` stands for `NaN` (no digits parsed). -/
def jsParseFloat (s : String) : Option JsNumber :=
  let cs := s.data.dropWhile fun c => c = ' ' ∨ c = '\t' ∨ c = '\n' ∨ c = '\r'
  let signAndRest : ℤ × List Char :=
    match cs with
    | '-' :: rest => (-1, rest)
    | '+' :: rest => (1, rest)
    | _ => (1, cs)
  let sign := signAndRest.1
  let cs := signAndRest.2
  let intDs := cs.takeWhile Char.isDigit
  let afterInt := cs.dropWhile Char.isDigit
  let fracDs : List Char :=
    match afterInt with
    | '.' :: rest => rest.takeWhile Char.isDigit
    | _ => []
  if intDs = [] ∧ fracDs = [] then none
  else
    some ⟨sign * ((digitsToNat intDs : ℤ) * 10 ^ fracDs.length +
      (digitsToNat fracDs : ℤ)), fracDs.length⟩

/-!
Coordinates are embedded as integers in units of 1/72000 millimetre.  Every
length occurring in the source is an integer multiple of this unit: the
whole-millimetre offsets, their halves, the line widths 0.5/0.3/0.1, the
line-height factor 0.35, and the A4 page dimensions, which jsPDF derives
from the point sizes 595.28 x 841.89 by the factor 25.4/72 (so one page
side is `59528 * 254` respectively `84189 * 254` units).  Scaling by the
positive constant 72000 is an order- and addition-preserving change of
units, so every comparison and every cursor computation of the source is
mirrored exactly.
-/

/-- One millimetre, in coordinate units. -/
def mm : ℤ := 72000

/-- Page width of the landscape report document (`841.89 pt * 25.4 / 72`). -/
def pageWidthL : ℤ := 84189 * 254

/-- Page height of the landscape report document (`595.28 pt * 25.4 / 72`). -/
def pageHeightL : ℤ := 59528 * 254

/-- Page width of the portrait receipt document. -/
def pageWidthP : ℤ := 59528 * 254

/-- Page height of the portrait receipt document. -/
def pageHeightP : ℤ := 84189 * 254

/-- Page margin used by both documents (15 mm). -/
def pdfMargin : ℤ := 15 * mm

/-- A drawing operation issued to the jsPDF document object. -/
inductive Op
  | setFontSize (size : ℕ)
  | setFont (family : String) (style : FontStyle)
  | setTextColor (r g b : ℕ)
  | setFillColor (r g b : ℕ)
  | setDrawColor (r g b : ℕ)
  | setLineWidth (w : ℤ)
  | text (s : String) (x y : ℤ) (align : Option Align)
  | line (x1 y1 x2 y2 : ℤ)
  | rect (x y w h : ℤ) (style : String)
  | image (data fmt : String) (x y w h : ℤ)
  | addPage
  | addFileToVFS (file data : String)
  | addFont (file family : String) (style : FontStyle)
deriving DecidableEq, Repr

/-- The strings of the text-drawing operations of an operation list, in
order: everything the document will display as text. -/
def textStrings (l : List Op) : List String :=
  l.filterMap fun o =>
    match o with
    | .text s _ _ _ => some s
    | _ => none

/-- A text-measuring oracle standing for jsPDF's `splitTextToSize`: splits a
string into the lines it occupies at a given maximum width. -/
def Split : Type := String → ℤ → List String

/-- The `maxWidth` handling shared by both `addText` helpers: split to the
width, keep only the first line, and append `"..."` when the split produced
more than one line.  A `maxWidth` of `0` is falsy in JavaScript, so the
whole block is skipped. -/
def truncateToWidth (split : Split) (text : String) (maxWidth : Option ℤ) : String :=
  match maxWidth with
  | none => text
  | some w =>
    if w = 0 then text
    else
      let lines := split text w
      let first := lines.headD text
      if lines.length > 1 then first ++ "..." else first

/-- Whether `doc.setFont('Amiri', …)` succeeds: the font registration loop
registered the first available font under its own name, so the family
`'Amiri'` exists iff the first embedded font is named `Amiri`. -/
def amiriRegistered (fonts : List FontAsset) : Bool :=
  match getAvailableArabicFont fonts with
  | some f => f.name == "Amiri"
  | none => false

/-- The option bag of the `addText` helpers; every field optional, with the
defaults resolved inside each helper (they differ between the two). -/
structure TextOptions where
  align : Option Align := none
  maxWidth : Option ℤ := none
  fontSize : Option ℕ := none
  fontStyle : Option FontStyle := none
  color : Option (ℕ × ℕ × ℕ) := none

/-- The RTL alignment adjustment both `addText` helpers perform, factored
into the pure function the spec calls `adjustForDirection`:
swap left↔right for `rtl`, keep everything else. -/
def adjustForDirection (align : Align) (dir : Direction) : Align :=
  match dir, align with
  | .rtl, .left => .right
  | .rtl, .right => .left
  | _, a => a

/-- The report document's `addText` helper: classifies the text, selects the
font, adjusts alignment and x for RTL, truncates to `maxWidth`, and issues
the drawing operations; returns the operations and the consumed line height
`fontSize * 0.35`. -/
def addTextReport (split : Split) (fonts : List FontAsset)
    (text : String) (x y : ℤ) (opts : TextOptions) : List Op × ℤ :=
  let align := opts.align.getD .center
  let fontSize := opts.fontSize.getD 10
  let fontStyle := opts.fontStyle.getD .normal
  let color := opts.color.getD (30, 41, 59)
  let isArabic := containsArabic text
  let dir := getTextDirection text
  if isArabic then
    let fontOp :=
      if amiriRegistered fonts then Op.setFont "Amiri" fontStyle
      else Op.setFont "helvetica" fontStyle
    let adjustedAlign :=
      if dir = .rtl then
        match align with
        | .left => Align.right
        | .right => Align.left
        | .center => Align.center
      else align
    let adjustedX :=
      if dir = .rtl then
        match opts.maxWidth with
        | some w =>
          if w = 0 then x
          else
            match adjustedAlign with
            | .right => x + w
            | .left => x + w
            | .center => x
        | none => x
      else x
    let finalText := truncateToWidth split text opts.maxWidth
    ([Op.setFontSize fontSize, fontOp,
      Op.setTextColor color.1 color.2.1 color.2.2,
      Op.text finalText adjustedX y (some adjustedAlign)], (fontSize : ℤ) * 7 * mm / 20)
  else
    let finalText := truncateToWidth split text opts.maxWidth
    ([Op.setFontSize fontSize, Op.setFont "helvetica" fontStyle,
      Op.setTextColor color.1 color.2.1 color.2.2,
      Op.text finalText x y (some align)], (fontSize : ℤ) * 7 * mm / 20)

/-- The receipt document's `addText` helper: same structure as the report
one, but with defaults `align = left`, `fontSize = 12`, `color = black`, and
without the RTL x adjustment. -/
def addTextReceipt (split : Split) (fonts : List FontAsset)
    (text : String) (x y : ℤ) (opts : TextOptions) : List Op × ℤ :=
  let align := opts.align.getD .left
  let fontSize := opts.fontSize.getD 12
  let fontStyle := opts.fontStyle.getD .normal
  let color := opts.color.getD (0, 0, 0)
  let isArabic := containsArabic text
  let dir := getTextDirection text
  if isArabic then
    let fontOp :=
      if amiriRegistered fonts then Op.setFont "Amiri" fontStyle
      else Op.setFont "helvetica" fontStyle
    let adjustedAlign :=
      if dir = .rtl then
        match align with
        | .left => Align.right
        | .right => Align.left
        | .center => Align.center
      else align
    let finalText := truncateToWidth split text opts.maxWidth
    ([Op.setFontSize fontSize, fontOp,
      Op.setTextColor color.1 color.2.1 color.2.2,
      Op.text finalText x y (some adjustedAlign)], (fontSize : ℤ) * 7 * mm / 20)
  else
    let finalText := truncateToWidth split text opts.maxWidth
    ([Op.setFontSize fontSize, Op.setFont "helvetica" fontStyle,
      Op.setTextColor color.1 color.2.1 color.2.2,
      Op.text finalText x y (some align)], (fontSize : ℤ) * 7 * mm / 20)

/-- The `OrderWithStatus` record: every field optional (`undefined` is
`none`). -/
structure OrderWithStatus where
  receiptNo : Option String := none
  orderId : Option String := none
  name : Option String := none
  orderDetails : Option String := none
  phoneNumber : Option String := none
  deliveryType : Option String := none
  date : Option String := none
  time : Option String := none
  status : Option String := none
  totalPayment : Option String := none
  advancePayment : Option String := none
  balancePayment : Option String := none
  discount : Option String := none
  location : Option String := none
  paymentType : Option String := none
  cookStatus : Option String := none
  address : Option String := none
deriving DecidableEq, Repr

/-- The display language requested in `PDFOptions`. -/
inductive Lang
  | en
  | ar
deriving DecidableEq, Repr

/-- The options record of `generateOrdersPDF`. -/
structure PDFOptions where
  title : String
  orders : List OrderWithStatus
  language : Lang := .en
  showSummary : Bool := false
  logoUrl : Option String := none

/-- The string-valued data keys a table column can read from an order
record (the seven column keys of the report plus `totalPayment`, which has
its own branch in `drawTableRow`). -/
inductive ColKey
  | receiptNo
  | name
  | orderDetails
  | phoneNumber
  | deliveryType
  | date
  | time
  | totalPayment
deriving DecidableEq, Repr

/-- `order[col.dataKey]` — field lookup by column key. -/
def getField (o : OrderWithStatus) : ColKey → Option String
  | .receiptNo => o.receiptNo
  | .name => o.name
  | .orderDetails => o.orderDetails
  | .phoneNumber => o.phoneNumber
  | .deliveryType => o.deliveryType
  | .date => o.date
  | .time => o.time
  | .totalPayment => o.totalPayment

/-- A report table column: header label, data key, fixed width (mm), and an
optional alignment (left in all seven actual columns, which leave it
unset). -/
structure TableColumn where
  header : String
  dataKey : ColKey
  width : ℤ
  align : Option Align := none

/-- The fixed column set of the report table. -/
def reportColumns : List TableColumn :=
  [ { header := "Receipt No", dataKey := .receiptNo, width := 28 * mm },
    { header := "Customer", dataKey := .name, width := 32 * mm },
    { header := "Order Details", dataKey := .orderDetails, width := 45 * mm },
    { header := "Phone Number", dataKey := .phoneNumber, width := 30 * mm },
    { header := "Delivery Type", dataKey := .deliveryType, width := 30 * mm },
    { header := "Date", dataKey := .date, width := 28 * mm },
    { header := "Time", dataKey := .time, width := 25 * mm } ]

/-- The raw cell value of a column before truncation/sanitization:
`totalPayment` passes a present string through verbatim, `receiptNo` falls
back through `orderId` to `'N/A'`, every other key falls back to `'N/A'`
directly. -/
def cellRaw (o : OrderWithStatus) (k : ColKey) : String :=
  match k, getField o k with
  | .totalPayment, some s => s
  | .receiptNo, _ => jsOr o.receiptNo (jsOr o.orderId "N/A")
  | _, v => jsOr v "N/A"

/-- The table-level truncation: cells longer than 30 characters are cut to
their first 27 characters with the `"..."` marker appended. -/
def truncateCell (s : String) : String :=
  if s.length > 30 then (s.data.take 27).asString ++ "..." else s

/-- Whether a code point survives the cell sanitization regex
`[^\x20-\x7E؀-ۿ]`: printable ASCII or the Arabic block. -/
def inPrintableOrArabic (c : Char) : Bool :=
  decide ((0x20 ≤ c.toNat ∧ c.toNat ≤ 0x7E) ∨ (0x600 ≤ c.toNat ∧ c.toNat ≤ 0x6FF))

/-- JavaScript `\s` on the characters this code can produce. -/
def jsWhitespace (c : Char) : Bool :=
  c = ' ' ∨ c = '\t' ∨ c = '\n' ∨ c = '\r' ∨ c = '\x0b' ∨ c = '\x0c'

/-- JavaScript `String.prototype.trim`: drop whitespace from both ends. -/
def jsTrim (s : String) : String :=
  (((s.data.dropWhile jsWhitespace).reverse.dropWhile jsWhitespace).reverse).asString

/-- The cell sanitization `replace(/[^\x20-\x7E؀-ۿ]/g, ' ').trim()`:
every out-of-range code point becomes a space, then the ends are trimmed. -/
def sanitizeCell (s : String) : String :=
  jsTrim (s.data.map fun c => if inPrintableOrArabic c then c else ' ').asString

/-- The string `drawTableRow` passes to the text renderer for one cell:
raw value, table-level truncation, then sanitization. -/
def cellText (o : OrderWithStatus) (k : ColKey) : String :=
  sanitizeCell (truncateCell (cellRaw o k))

/-- Sum of the column widths (`columns.reduce`). -/
def reportTableWidth : ℤ :=
  reportColumns.foldl (fun a c => a + c.width) 0

/-- The fixed English text table of the report (`getEnglishText`); note the
`title` entry is the literal Arabic string of the source. -/
structure EnglishText where
  title : String
  generatedOn : String
  noOrders : String
  receiptNo : String
  customer : String
  orderDetails : String
  phoneNumber : String
  deliveryType : String
  date : String
  time : String

/-- `getEnglishText()` of the source. -/
def getEnglishText : EnglishText :=
  { title := "طلبات اليوم"
    generatedOn := "Generated on"
    noOrders := "No orders to display"
    receiptNo := "Receipt No"
    customer := "Customer"
    orderDetails := "Order Details"
    phoneNumber := "Phone Number"
    deliveryType := "Delivery Type"
    date := "Date"
    time := "Time" }

/-- The mutable document state of `generateOrdersPDF`: accumulated drawing
operations, the running vertical cursor `currentY`, and the page counter. -/
structure GenState where
  ops : List Op
  currentY : ℤ
  pageCount : ℕ

/-- `checkAndAddPage`: if the required height does not fit above the bottom
margin, add a page and reset the cursor to the top margin. -/
def checkAndAddPage (requiredHeight : ℤ) (st : GenState) : Bool × GenState :=
  if st.currentY + requiredHeight > pageHeightL - pdfMargin - 10 * mm then
    (true, { ops := st.ops ++ [Op.addPage], currentY := pdfMargin,
             pageCount := st.pageCount + 1 })
  else
    (false, st)

/-- The font-initialization step shared by both generators: when the
registry is non-empty, the first font is written to the VFS and registered
under its own name. -/
def arabicFontSetupOps (fonts : List FontAsset) : List Op :=
  if hasArabicFonts fonts then
    match getAvailableArabicFont fonts with
    | some f =>
      [Op.addFileToVFS (f.name ++ "-Regular.ttf") f.base64,
       Op.addFont (f.name ++ "-Regular.ttf") f.name .normal]
    | none => []
  else []

/-- The header block of the report (`addHeader` applied to a state): fixed
title, `Generated on` line with the formatted current date-time `now`, and a
separator line; advances the cursor by 15 + 10 + 10. -/
def addHeader (split : Split) (fonts : List FontAsset) (now : String)
    (st : GenState) : GenState :=
  let st1 : GenState :=
    { st with ops := st.ops ++
        (addTextReport split fonts getEnglishText.title (pageWidthL / 2) st.currentY
          { align := some .center, fontSize := some 20, fontStyle := some .bold,
            color := some (37, 99, 235) }).1 }
  let st2 : GenState := { st1 with currentY := st1.currentY + 15 * mm }
  let generatedText := getEnglishText.generatedOn ++ ": " ++ now
  let st3 : GenState :=
    { st2 with ops := st2.ops ++
        (addTextReport split fonts generatedText (pageWidthL / 2) st2.currentY
          { align := some .center, fontSize := some 8,
            color := some (100, 116, 139) }).1 }
  let st4 : GenState := { st3 with currentY := st3.currentY + 10 * mm }
  let st5 : GenState :=
    { st4 with ops := st4.ops ++
        [Op.setDrawColor 226 232 240, Op.setLineWidth (mm / 2),
         Op.line pdfMargin st4.currentY (pageWidthL - pdfMargin) st4.currentY] }
  { st5 with currentY := st5.currentY + 10 * mm }

/-- The drawing operations of one table header drawn at `startY`
(`drawTableHeader` body); the caller's next `tableY` is `startY + 10`. -/
def drawTableHeaderOps (split : Split) (fonts : List FontAsset)
    (startY : ℤ) : List Op :=
  let base :=
    [Op.setFillColor 248 250 252,
     Op.rect pdfMargin (startY - 2 * mm) reportTableWidth (10 * mm) "F",
     Op.setDrawColor 226 232 240, Op.setLineWidth (3 * mm / 10)]
  let cells :=
    (reportColumns.foldl (fun (acc : List Op × ℤ) col =>
      let ops := acc.1
      let x := acc.2
      let ops := ops ++ [Op.line x (startY - 2 * mm) x (startY + 10 * mm - 2 * mm)]
      let ops := ops ++
        (addTextReport split fonts col.header (x + col.width / 2) (startY + 4 * mm)
          { align := some .center, fontSize := some 10, fontStyle := some .bold,
            color := some (30, 41, 59), maxWidth := some (col.width - 4 * mm) }).1
      (ops, x + col.width)) ([], pdfMargin))
  let finalX := cells.2
  base ++ cells.1 ++
    [Op.line finalX (startY - 2 * mm) finalX (startY + 10 * mm - 2 * mm),
     Op.line pdfMargin (startY - 2 * mm) finalX (startY - 2 * mm),
     Op.line pdfMargin (startY + 10 * mm - 2 * mm) finalX (startY + 10 * mm - 2 * mm)]

/-- The drawing operations of one table row drawn at `startY`
(`drawTableRow` body); the caller's next `tableY` is `startY + 8`. -/
def drawTableRowOps (split : Split) (fonts : List FontAsset)
    (order : OrderWithStatus) (startY : ℤ) (isAlternate : Bool) : List Op :=
  let shade :=
    if isAlternate then
      [Op.setFillColor 249 250 251,
       Op.rect pdfMargin (startY - 2 * mm) reportTableWidth (8 * mm) "F"]
    else []
  let base := [Op.setDrawColor 226 232 240, Op.setLineWidth (mm / 10)]
  let cells :=
    (reportColumns.foldl (fun (acc : List Op × ℤ) col =>
      let ops := acc.1
      let x := acc.2
      let ops := ops ++ [Op.line x (startY - 2 * mm) x (startY + 8 * mm - 2 * mm)]
      let cellData := cellText order col.dataKey
      let textX :=
        match col.align with
        | some .center => x + col.width / 2
        | some .right => x + col.width - 2 * mm
        | _ => x + 2 * mm
      let ops := ops ++
        (addTextReport split fonts cellData textX (startY + 3 * mm)
          { align := some (col.align.getD .left), fontSize := some 9,
            color := some (30, 41, 59), maxWidth := some (col.width - 4 * mm) }).1
      (ops, x + col.width)) ([], pdfMargin))
  let finalX := cells.2
  shade ++ base ++ cells.1 ++
    [Op.line finalX (startY - 2 * mm) finalX (startY + 8 * mm - 2 * mm),
     Op.line pdfMargin (startY + 8 * mm - 2 * mm) finalX (startY + 8 * mm - 2 * mm)]

/-- The per-row loop of `addOrdersTable`: before each row, `checkAndAddPage`
is consulted (against the engine's `currentY` cursor), a fresh header is
drawn at the top of a new page, and the row is drawn at the running
`tableY`. -/
def tableRowsLoop (split : Split) (fonts : List FontAsset) :
    List (ℕ × OrderWithStatus) → GenState → ℤ → GenState × ℤ
  | [], st, tableY => (st, tableY)
  | (index, order) :: rest, st, tableY =>
    let checked := checkAndAddPage (8 * mm + 5 * mm) st
    let st1 := checked.2
    let afterHeader : GenState × ℤ :=
      if checked.1 then
        ({ st1 with ops := st1.ops ++ drawTableHeaderOps split fonts st1.currentY },
         st1.currentY + 10 * mm)
      else (st1, tableY)
    let st2 := afterHeader.1
    let tableY2 := afterHeader.2
    let st3 : GenState :=
      { st2 with ops := st2.ops ++
          drawTableRowOps split fonts order tableY2 (index % 2 == 1) }
    tableRowsLoop split fonts rest st3 (tableY2 + 8 * mm)

/-- `addOrdersTable`: the no-orders message for an empty list (cursor left
unchanged), otherwise a header-fit check, the table header, and the row
loop, after which the cursor jumps below the table. -/
def addOrdersTable (split : Split) (fonts : List FontAsset)
    (orders : List OrderWithStatus) (st : GenState) : GenState :=
  if orders = [] then
    { st with ops := st.ops ++
        (addTextReport split fonts getEnglishText.noOrders (pageWidthL / 2)
          (st.currentY + 20 * mm)
          { align := some .center, fontSize := some 14,
            color := some (100, 116, 139) }).1 }
  else
    let tableY0 := st.currentY
    let checked := checkAndAddPage (10 * mm + 8 * mm * 3) st
    let st1 := checked.2
    let tableY1 := if checked.1 then st1.currentY else tableY0
    let st2 : GenState :=
      { st1 with ops := st1.ops ++ drawTableHeaderOps split fonts tableY1 }
    let looped := tableRowsLoop split fonts orders.enum st2 (tableY1 + 10 * mm)
    { looped.1 with currentY := looped.2 + 10 * mm }

/-- `generateOrdersPDF`: font setup, header block, orders table.  The
summary and footer stages are commented out in the source; the `title`,
`language` and `logoUrl` options are destructured but unused. -/
def generateOrdersPDF (split : Split) (fonts : List FontAsset) (now : String)
    (po : PDFOptions) : GenState :=
  let st : GenState :=
    { ops := arabicFontSetupOps fonts, currentY := pdfMargin, pageCount := 1 }
  let st := addHeader split fonts now st
  addOrdersTable split fonts po.orders st

/-- JavaScript `toUpperCase` on the ASCII payment-type values. -/
def jsToUpperCase (s : String) : String :=
  (s.data.map Char.toUpper).asString

/-- The guard of the optional payment lines:
`order.field && parseFloat(order.field) > 0` — the field must be truthy and
parse to a value strictly greater than zero (`NaN > 0` is false). -/
def paymentLineShown (v : Option String) : Bool :=
  match v with
  | some s =>
    !(s == "") &&
      (match jsParseFloat s with
       | some v => decide (0 < v.num)
       | none => false)
  | none => false

/-- The `Receipt No` header line text of the receipt. -/
def receiptHeaderNoText (o : OrderWithStatus) : String :=
  "Receipt No: " ++ jsOr o.receiptNo (jsOr o.orderId "N/A")

/-- The order-details line text of the receipt: the free text (or `'N/A'`)
after the renderer's `maxWidth` pass at the full page width. -/
def receiptDetailsText (split : Split) (o : OrderWithStatus) : String :=
  truncateToWidth split (jsOr o.orderDetails "N/A") (some (pageWidthP - 2 * pdfMargin))

/-- The receipt body below the header image / fallback title, started at
cursor position `y0`: receipt-number/date header, customer info, order
details, delivery info, payment info bounded by the conditional lines, and
the fixed footer. -/
def receiptBody (split : Split) (fonts : List FontAsset)
    (o : OrderWithStatus) (y0 : ℤ) : List Op :=
  let leftColX := pdfMargin
  let rightColX := pageWidthP / 2
  let y := y0
  let ops : List Op :=
    [Op.setFillColor 248 250 252,
     Op.rect pdfMargin (y - 5 * mm) (pageWidthP - 2 * pdfMargin) (25 * mm) "F"]
  let ops := ops ++
    (addTextReceipt split fonts (receiptHeaderNoText o) leftColX y
      { fontSize := some 12, fontStyle := some .bold }).1
  let ops := ops ++
    (addTextReceipt split fonts ("Date: " ++ jsOr o.date "N/A") rightColX y {}).1
  let y := y + 8 * mm
  let ops := ops ++
    (addTextReceipt split fonts ("Time: " ++ jsOr o.time "N/A") rightColX y {}).1
  let y := y + 15 * mm
  let ops := ops ++
    (addTextReceipt split fonts "Customer Information:" pdfMargin y
      { fontSize := some 14, fontStyle := some .bold, color := some (37, 99, 235) }).1
  let y := y + 10 * mm
  let ops := ops ++
    (addTextReceipt split fonts ("Name: " ++ jsOr o.name "N/A") leftColX y {}).1
  let ops := ops ++
    (addTextReceipt split fonts ("Phone: " ++ jsOr o.phoneNumber "N/A") rightColX y {}).1
  let y := y + 8 * mm
  let addrStep : List Op × ℤ :=
    if jsTruthy o.address then
      ((addTextReceipt split fonts ("Address: " ++ o.address.getD "") leftColX y {}).1,
       y + 8 * mm)
    else ([], y)
  let ops := ops ++ addrStep.1
  let y := addrStep.2
  let locStep : List Op × ℤ :=
    if jsTruthy o.location then
      ((addTextReceipt split fonts ("Location: " ++ o.location.getD "") rightColX y {}).1,
       y + 8 * mm)
    else ([], y)
  let ops := ops ++ locStep.1
  let y := locStep.2
  let y := y + 12 * mm
  let ops := ops ++
    (addTextReceipt split fonts "Order Details:" pdfMargin y
      { fontSize := some 14, fontStyle := some .bold, color := some (37, 99, 235) }).1
  let y := y + 10 * mm
  let ops := ops ++
    (addTextReceipt split fonts (jsOr o.orderDetails "N/A") pdfMargin y
      { maxWidth := some (pageWidthP - 2 * pdfMargin) }).1
  let y := y + 15 * mm
  let ops := ops ++
    (addTextReceipt split fonts "Delivery Information:" pdfMargin y
      { fontSize := some 14, fontStyle := some .bold, color := some (37, 99, 235) }).1
  let y := y + 10 * mm
  let ops := ops ++
    (addTextReceipt split fonts ("Type: " ++ jsOr o.deliveryType "N/A") leftColX y {}).1
  let y := y + 15 * mm
  let ops := ops ++
    (addTextReceipt split fonts "Payment Information:" pdfMargin y
      { fontSize := some 14, fontStyle := some .bold, color := some (37, 99, 235) }).1
  let y := y + 10 * mm
  let ops := ops ++
    (addTextReceipt split fonts
      ("Total Amount: OMR " ++ jsOr o.totalPayment "0.000") leftColX y
      { fontSize := some 14, fontStyle := some .bold, color := some (37, 99, 235) }).1
  let ops := ops ++
    (if jsTruthy o.paymentType then
      (addTextReceipt split fonts
        ("Payment Type: " ++ jsToUpperCase (o.paymentType.getD "")) rightColX y {}).1
    else [])
  let y := y + 8 * mm
  let advStep : List Op × ℤ :=
    if paymentLineShown o.advancePayment then
      ((addTextReceipt split fonts
          ("Advance Payment: OMR " ++ o.advancePayment.getD "") leftColX y {}).1,
       y + 8 * mm)
    else ([], y)
  let ops := ops ++ advStep.1
  let y := advStep.2
  let balStep : List Op × ℤ :=
    if paymentLineShown o.balancePayment then
      ((addTextReceipt split fonts
          ("Balance Payment: OMR " ++ o.balancePayment.getD "") rightColX y {}).1,
       y + 8 * mm)
    else ([], y)
  let ops := ops ++ balStep.1
  let y := balStep.2
  let discStep : List Op × ℤ :=
    if paymentLineShown o.discount then
      ((addTextReceipt split fonts
          ("Discount: OMR " ++ o.discount.getD "") leftColX y {}).1,
       y + 8 * mm)
    else ([], y)
  let ops := ops ++ discStep.1
  let footerY := pageHeightP - pdfMargin - 20 * mm
  let ops := ops ++
    [Op.setDrawColor 200 200 200, Op.setLineWidth (mm / 2),
     Op.line pdfMargin (footerY - 15 * mm) (pageWidthP - pdfMargin) (footerY - 15 * mm)]
  ops ++
    (addTextReceipt split fonts "Thank you for your order!" (pageWidthP / 2)
      (footerY - 5 * mm)
      { align := some .center, fontSize := some 10, color := some (100, 100, 100) }).1

/-- `generateOrderReceiptPDF`: the image load (the only fallible step,
modelled by the `image` argument) is attempted inside a try/catch; on
success the image is placed and the cursor advanced by `35 + 15`, on failure
the centered bold `RECEIPT` title is drawn instead and the cursor advanced
by `15`.  Every failure is caught, so the result is always `ok`. -/
def generateOrderReceiptPDF (split : Split) (fonts : List FontAsset)
    (image : Except String String) (o : OrderWithStatus) :
    Except String (List Op) :=
  let fontOps := arabicFontSetupOps fonts
  match image with
  | .ok data =>
    .ok (fontOps ++
      [Op.image data "PNG" pdfMargin pdfMargin (pageWidthP - 2 * pdfMargin) (35 * mm)] ++
      receiptBody split fonts o (pdfMargin + 35 * mm + 15 * mm))
  | .error _ =>
    .ok (fontOps ++
      (addTextReceipt split fonts "RECEIPT" (pageWidthP / 2) pdfMargin
        { align := some .center, fontSize := some 20, fontStyle := some .bold }).1 ++
      receiptBody split fonts o (pdfMargin + 15 * mm))

/-- Project the operation list out of a receipt-generation result. -/
def getOps : Except String (List Op) → List Op
  | .ok l => l
  | .error _ => []

/-- Replace every maximal whitespace run with a single `-`
(`replace(/\s+/g, '-')`), tracking whether the previous character was
whitespace. -/
def collapseWsAux : Bool → List Char → List Char
  | _, [] => []
  | prevWs, c :: rest =>
    if jsWhitespace c then
      if prevWs then collapseWsAux true rest
      else '-' :: collapseWsAux true rest
    else c :: collapseWsAux false rest

/-- The customer-name sanitization of `downloadOrderReceipt`:
`replace(/[^a-zA-Z0-9\s]/g, '')` then `replace(/\s+/g, '-')`. -/
def sanitizeReceiptName (s : String) : String :=
  (collapseWsAux false
    (s.data.filter fun c => c.isAlpha || c.isDigit || jsWhitespace c)).asString

/-- The receipt file name computed by `downloadOrderReceipt`:
`receipt-<receiptNo||orderId||'receipt'>-<sanitized name>.pdf`. -/
def receiptFileName (o : OrderWithStatus) : String :=
  "receipt-" ++ jsOr o.receiptNo (jsOr o.orderId "receipt") ++ "-" ++
    sanitizeReceiptName (jsOr o.name "customer") ++ ".pdf"

/-- A text-measuring oracle that never wraps: every string is a single
line.  Concrete instantiation used by closed evaluations. -/
def idSplit : Split := fun s _ => [s]

/-- A text-measuring oracle that breaks strings longer than ten characters
into two lines.  Concrete instantiation used by closed evaluations. -/
def split10 : Split := fun s _ =>
  if s.length ≤ 10 then [s]
  else [(s.data.take 10).asString, (s.data.drop 10).asString]

/-- Whether `needle` occurs as a contiguous run inside a character list
(used to check whether a full text appears anywhere in the document's
concatenated text). -/
def hasRun (needle : List Char) : List Char → Bool
  | [] => needle.isEmpty
  | c :: rest => needle.isPrefixOf (c :: rest) || hasRun needle rest

/-- Concrete record with a 20-character order-details text. -/
def c1Order : OrderWithStatus := { orderDetails := some "abcdefghij0123456789" }

/-- Concrete record whose customer name contains `é` (U+00E9), a code point
outside printable ASCII and outside the Arabic block. -/
def c8Order : OrderWithStatus := { name := some "José" }

/-- Concrete order record used for the pagination evaluation. -/
def c3Order : OrderWithStatus :=
  { receiptNo := some "R1", name := some "Alice", orderDetails := some "Rice",
    phoneNumber := some "99", deliveryType := some "Delivery",
    date := some "2024-01-15", time := some "10:00" }

/-- Thirty order records: total row height 240 mm, far more than the
roughly 125 mm remaining below the table header on one page. -/
def c3Orders : List OrderWithStatus := List.replicate 30 c3Order

/-- The report generated for the thirty records. -/
def c3Report : GenState :=
  generateOrdersPDF idSplit [] "1/15/2024 10:00:00 AM"
    { title := "Today Orders", orders := c3Orders }

/-- The text op alignment actually used for a rendered string: the align
field of the first text-drawing operation of a list. -/
def firstTextAlign (l : List Op) : Option Align :=
  l.findSome? fun o =>
    match o with
    | .text _ _ _ al => al
    | _ => none

lemma truncateToWidth_none (split : Split) (t : String) :
    truncateToWidth split t none = t := rfl

/-- A parsed decimal is positive exactly when its integer numerator is: the
comparison `parseFloat(s) > 0` of the source is mirrored by the `0 < num`
test of the embedding. -/
lemma JsNumber.toRat_pos (v : JsNumber) : 0 < v.toRat ↔ 0 < v.num := by
  have hp : (0 : ℚ) < (10 : ℚ) ^ v.pow := by positivity
  rw [JsNumber.toRat, div_pos_iff]
  constructor
  · rintro (⟨h, -⟩ | ⟨-, h⟩)
    · exact_mod_cast h
    · exact absurd hp (not_lt.mpr h.le)
  · intro h
    exact Or.inl ⟨by exact_mod_cast h, hp⟩

lemma textStrings_append (a b : List Op) :
    textStrings (a ++ b) = textStrings a ++ textStrings b := by
  simp [textStrings]

lemma textStrings_addTextReport (split : Split) (fonts : List FontAsset)
    (t : String) (x y : ℤ) (opts : TextOptions) :
    textStrings (addTextReport split fonts t x y opts).1
      = [truncateToWidth split t opts.maxWidth] := by
  cases h : containsArabic t <;> cases hf : amiriRegistered fonts <;>
    simp [addTextReport, textStrings, h, hf]

lemma textStrings_addTextReceipt (split : Split) (fonts : List FontAsset)
    (t : String) (x y : ℤ) (opts : TextOptions) :
    textStrings (addTextReceipt split fonts t x y opts).1
      = [truncateToWidth split t opts.maxWidth] := by
  cases h : containsArabic t <;> cases hf : amiriRegistered fonts <;>
    simp [addTextReceipt, textStrings, h, hf]

lemma textStrings_arabicFontSetupOps (fonts : List FontAsset) :
    textStrings (arabicFontSetupOps fonts) = [] := by
  cases fonts <;>
    simp [arabicFontSetupOps, hasArabicFonts, getAvailableArabicFont, textStrings]

/-- Exactly which text lines the receipt body displays, in order: the fixed
sections, the fallback-resolved field lines, and each conditional line
(present-address, present-location, truthy payment type, positive advance /
balance / discount) exactly under its guard. -/
lemma receiptBody_textStrings (split : Split) (fonts : List FontAsset)
    (o : OrderWithStatus) (y0 : ℤ) :
    textStrings (receiptBody split fonts o y0) =
      [receiptHeaderNoText o, "Date: " ++ jsOr o.date "N/A",
       "Time: " ++ jsOr o.time "N/A", "Customer Information:",
       "Name: " ++ jsOr o.name "N/A", "Phone: " ++ jsOr o.phoneNumber "N/A"]
      ++ (if jsTruthy o.address then ["Address: " ++ o.address.getD ""] else [])
      ++ (if jsTruthy o.location then ["Location: " ++ o.location.getD ""] else [])
      ++ ["Order Details:", receiptDetailsText split o, "Delivery Information:",
          "Type: " ++ jsOr o.deliveryType "N/A", "Payment Information:",
          "Total Amount: OMR " ++ jsOr o.totalPayment "0.000"]
      ++ (if jsTruthy o.paymentType then
            ["Payment Type: " ++ jsToUpperCase (o.paymentType.getD "")] else [])
      ++ (if paymentLineShown o.advancePayment then
            ["Advance Payment: OMR " ++ o.advancePayment.getD ""] else [])
      ++ (if paymentLineShown o.balancePayment then
            ["Balance Payment: OMR " ++ o.balancePayment.getD ""] else [])
      ++ (if paymentLineShown o.discount then
            ["Discount: OMR " ++ o.discount.getD ""] else [])
      ++ ["Thank you for your order!"] := by
  simp only [receiptBody, textStrings_append, apply_ite textStrings,
    apply_ite Prod.fst, textStrings_addTextReceipt, receiptDetailsText]
  simp [textStrings, truncateToWidth_none, List.append_assoc]

/-- The drawing operations of the report's header block (title, generation
line, separator), which `addHeader` appends at the top margin. -/
def addHeaderOpsList (split : Split) (fonts : List FontAsset) (now : String) :
    List Op :=
  (addHeader split fonts now { ops := [], currentY := pdfMargin, pageCount := 1 }).ops

lemma addHeader_state (split : Split) (fonts : List FontAsset) (now : String)
    (ops0 : List Op) (pc : ℕ) :
    addHeader split fonts now { ops := ops0, currentY := pdfMargin, pageCount := pc }
      = { ops := ops0 ++ addHeaderOpsList split fonts now, currentY := 50 * mm,
          pageCount := pc } := by
  simp only [addHeader, addHeaderOpsList, GenState.mk.injEq]
  exact ⟨by simp [List.append_assoc], by decide, trivial⟩

lemma textStrings_addHeaderOpsList (split : Split) (fonts : List FontAsset)
    (now : String) :
    textStrings (addHeaderOpsList split fonts now)
      = [getEnglishText.title, getEnglishText.generatedOn ++ ": " ++ now] := by
  simp only [addHeaderOpsList, addHeader, List.nil_append, textStrings_append,
    textStrings_addTextReport, truncateToWidth_none]
  simp [textStrings]

/-- `addTextReport` on non-Arabic text: helvetica at the requested weight,
the requested color, the width-truncated text at the unadjusted position. -/
lemma addTextReport_nonArabic (split : Split) (fonts : List FontAsset)
    (t : String) (x y : ℤ) (opts : TextOptions)
    (h : containsArabic t = false) :
    (addTextReport split fonts t x y opts).1 =
      [Op.setFontSize (opts.fontSize.getD 10),
       Op.setFont "helvetica" (opts.fontStyle.getD .normal),
       Op.setTextColor (opts.color.getD (30, 41, 59)).1
         (opts.color.getD (30, 41, 59)).2.1 (opts.color.getD (30, 41, 59)).2.2,
       Op.text (truncateToWidth split t opts.maxWidth) x y
         (some (opts.align.getD .center))] := by
  simp [addTextReport, h]

lemma checkAndAddPage_ops_extends (r : ℤ) (st : GenState) :
    ∃ t, ((checkAndAddPage r st).2).ops = st.ops ++ t := by
  unfold checkAndAddPage
  split_ifs
  · exact ⟨[Op.addPage], rfl⟩
  · exact ⟨[], (List.append_nil _).symm⟩

lemma tableRowsLoop_ops_extends (split : Split) (fonts : List FontAsset) :
    ∀ (l : List (ℕ × OrderWithStatus)) (st : GenState) (y : ℤ),
      ∃ t, (tableRowsLoop split fonts l st y).1.ops = st.ops ++ t := by
  intro l
  induction l with
  | nil =>
    intro st y
    exact ⟨[], (List.append_nil _).symm⟩
  | cons hd tl ih =>
    intro st y
    obtain ⟨idx, o⟩ := hd
    rcases hc : checkAndAddPage (8 * mm + 5 * mm) st with ⟨added, st1⟩
    have hext := checkAndAddPage_ops_extends (8 * mm + 5 * mm) st
    rw [hc] at hext
    obtain ⟨t1, ht1⟩ := hext
    dsimp only at ht1
    cases added
    · obtain ⟨t2, ht2⟩ := ih
        { st1 with ops := st1.ops ++ drawTableRowOps split fonts o y (idx % 2 == 1) }
        (y + 8 * mm)
      refine ⟨t1 ++ (drawTableRowOps split fonts o y (idx % 2 == 1) ++ t2), ?_⟩
      simp only [tableRowsLoop, hc]
      simp only [Bool.false_eq_true, if_false]
      rw [ht2]
      simp only [ht1]
      simp [List.append_assoc]
    · obtain ⟨t2, ht2⟩ := ih
        { st1 with ops := (st1.ops ++ drawTableHeaderOps split fonts st1.currentY) ++
            drawTableRowOps split fonts o (st1.currentY + 10 * mm) (idx % 2 == 1) }
        ((st1.currentY + 10 * mm) + 8 * mm)
      refine ⟨t1 ++ (drawTableHeaderOps split fonts st1.currentY ++
        (drawTableRowOps split fonts o (st1.currentY + 10 * mm) (idx % 2 == 1) ++ t2)), ?_⟩
      simp only [tableRowsLoop, hc]
      simp only [if_true]
      rw [ht2]
      simp only [ht1]
      simp [List.append_assoc]

lemma addOrdersTable_ops_extends (split : Split) (fonts : List FontAsset)
    (orders : List OrderWithStatus) (st : GenState) :
    ∃ t, (addOrdersTable split fonts orders st).ops = st.ops ++ t := by
  unfold addOrdersTable
  split_ifs
  · exact ⟨_, rfl⟩
  · rcases hc : checkAndAddPage (10 * mm + 8 * mm * 3) st with ⟨added, st1⟩
    have hext := checkAndAddPage_ops_extends (10 * mm + 8 * mm * 3) st
    rw [hc] at hext
    obtain ⟨t1, ht1⟩ := hext
    dsimp only at ht1
    obtain ⟨t2, ht2⟩ := tableRowsLoop_ops_extends split fonts orders.enum
      { st1 with ops := st1.ops ++
          drawTableHeaderOps split fonts (if added then st1.currentY else st.currentY) }
      ((if added then st1.currentY else st.currentY) + 10 * mm)
    refine ⟨t1 ++ (drawTableHeaderOps split fonts
      (if added then st1.currentY else st.currentY) ++ t2), ?_⟩
    simp only [hc]
    rw [ht2]
    simp only [ht1]
    simp [List.append_assoc]

lemma generated_line_ne (now h : String) (hh : h.length < 14) :
    getEnglishText.generatedOn ++ ": " ++ now ≠ h := by
  intro he
  apply_fun String.length at he
  rw [String.length_append, String.length_append] at he
  have h12 : (getEnglishText.generatedOn).length = 12 := by decide
  have h2 : (": ").length = 2 := by decide
  rw [h12, h2] at he
  omega

/-- C2: for the empty record list the report consists of the font setup,
the header block, and exactly one further drawing group: the single
centered `noOrders` message (one text operation, no table header and no
other table operation); none of the seven column header labels occurs
anywhere among the document's text operations. -/
theorem c2_empty_list_no_table (split : Split) (fonts : List FontAsset)
    (now title : String) (lang : Lang) (sh : Bool) (logo : Option String) :
    (generateOrdersPDF split fonts now
        { title := title, orders := [], language := lang, showSummary := sh,
          logoUrl := logo }).ops
      = arabicFontSetupOps fonts ++ addHeaderOpsList split fonts now ++
        [Op.setFontSize 14, Op.setFont "helvetica" .normal,
         Op.setTextColor 100 116 139,
         Op.text getEnglishText.noOrders (pageWidthL / 2) (70 * mm) (some .center)]
    ∧ textStrings (generateOrdersPDF split fonts now
        { title := title, orders := [], language := lang, showSummary := sh,
          logoUrl := logo }).ops
      = [getEnglishText.title, getEnglishText.generatedOn ++ ": " ++ now,
         getEnglishText.noOrders]
    ∧ ∀ s ∈ reportColumns.map TableColumn.header,
        s ∉ textStrings (generateOrdersPDF split fonts now
          { title := title, orders := [], language := lang, showSummary := sh,
            logoUrl := logo }).ops := by
  have hops : (generateOrdersPDF split fonts now
      { title := title, orders := [], language := lang, showSummary := sh,
        logoUrl := logo }).ops
      = arabicFontSetupOps fonts ++ addHeaderOpsList split fonts now ++
        [Op.setFontSize 14, Op.setFont "helvetica" .normal,
         Op.setTextColor 100 116 139,
         Op.text getEnglishText.noOrders (pageWidthL / 2) (70 * mm) (some .center)] := by
    show (addOrdersTable split fonts []
        (addHeader split fonts now
          { ops := arabicFontSetupOps fonts, currentY := pdfMargin,
            pageCount := 1 })).ops = _
    rw [addHeader_state]
    simp only [addOrdersTable, if_pos rfl]
    rw [addTextReport_nonArabic split fonts getEnglishText.noOrders
      (pageWidthL / 2) (50 * mm + 20 * mm) _ (by decide)]
    simp only [truncateToWidth_none]
    norm_num [List.append_assoc]
    ring
  have htex : textStrings (generateOrdersPDF split fonts now
      { title := title, orders := [], language := lang, showSummary := sh,
        logoUrl := logo }).ops
      = [getEnglishText.title, getEnglishText.generatedOn ++ ": " ++ now,
         getEnglishText.noOrders] := by
    rw [hops]
    simp only [textStrings_append, textStrings_arabicFontSetupOps,
      textStrings_addHeaderOpsList]
    simp [textStrings]
  refine ⟨hops, htex, ?_⟩
  intro s hs hmem
  rw [htex] at hmem
  simp only [List.mem_cons, List.not_mem_nil, or_false] at hmem
  simp only [reportColumns, List.map_cons, List.map_nil, List.mem_cons,
    List.not_mem_nil, or_false] at hs
  rcases hs with rfl | rfl | rfl | rfl | rfl | rfl | rfl <;>
    rcases hmem with h | h | h <;>
      first
        | exact absurd h (by decide)
        | exact absurd h.symm (generated_line_ne now _ (by decide))

/-- C7: the requested display language does not influence the report at
all — the documents generated for `en` and `ar` are identical — and the
document opens with the header block, whose text is exactly the fixed
(non-localized) dictionary title and the `Generated on` timestamp line. -/
theorem c7_language_invariance (split : Split) (fonts : List FontAsset)
    (now title : String) (orders : List OrderWithStatus) (sh : Bool)
    (logo : Option String) :
    generateOrdersPDF split fonts now
        { title := title, orders := orders, language := .en, showSummary := sh,
          logoUrl := logo }
      = generateOrdersPDF split fonts now
        { title := title, orders := orders, language := .ar, showSummary := sh,
          logoUrl := logo }
    ∧ textStrings (addHeaderOpsList split fonts now)
        = [getEnglishText.title, getEnglishText.generatedOn ++ ": " ++ now]
    ∧ ∃ t, (generateOrdersPDF split fonts now
        { title := title, orders := orders, language := .en, showSummary := sh,
          logoUrl := logo }).ops
        = arabicFontSetupOps fonts ++ (addHeaderOpsList split fonts now ++ t) := by
  refine ⟨rfl, textStrings_addHeaderOpsList split fonts now, ?_⟩
  show ∃ t, (addOrdersTable split fonts orders
      (addHeader split fonts now
        { ops := arabicFontSetupOps fonts, currentY := pdfMargin,
          pageCount := 1 })).ops = _
  rw [addHeader_state]
  obtain ⟨t, ht⟩ := addOrdersTable_ops_extends split fonts orders
    { ops := arabicFontSetupOps fonts ++ addHeaderOpsList split fonts now,
      currentY := 50 * mm, pageCount := 1 }
  exact ⟨t, by rw [ht]; simp [List.append_assoc]⟩

/-- C5: both `addText` helpers render with the direction-adjusted
alignment: for Arabic-classified text (direction `rtl`) a requested `left`
becomes `right` and a requested `right` becomes `left` while `center` stays
`center`; for `ltr` text the requested alignment passes through unchanged.
The two renderers differ only in the default request (`center` for the
report, `left` for the receipt). -/
theorem c5_direction_adjusted_alignment (split : Split) (fonts : List FontAsset)
    (t : String) (x y : ℤ) (opts : TextOptions) :
    firstTextAlign (addTextReport split fonts t x y opts).1
      = some (adjustForDirection (opts.align.getD .center) (getTextDirection t))
    ∧ firstTextAlign (addTextReceipt split fonts t x y opts).1
      = some (adjustForDirection (opts.align.getD .left) (getTextDirection t))
    ∧ adjustForDirection .left .rtl = .right
    ∧ adjustForDirection .right .rtl = .left
    ∧ (∀ d, adjustForDirection .center d = .center)
    ∧ (∀ a, adjustForDirection a .ltr = a) := by
  refine ⟨?_, ?_, rfl, rfl, ?_, ?_⟩
  · cases h : containsArabic t <;> cases hf : amiriRegistered fonts <;>
      cases ha : opts.align.getD .center <;>
        simp [addTextReport, firstTextAlign, getTextDirection, h, hf, ha,
          adjustForDirection, List.findSome?]
  · cases h : containsArabic t <;> cases hf : amiriRegistered fonts <;>
      cases ha : opts.align.getD .left <;>
        simp [addTextReceipt, firstTextAlign, getTextDirection, h, hf, ha,
          adjustForDirection, List.findSome?]
  · intro d
    cases d <;> rfl
  · intro a
    cases a <;> rfl

/-- C4: the table layer truncates any cell value longer than 30 characters
to its first 27 characters followed by the ellipsis marker (rendered by
this code as the three-character string `"..."`) before the value reaches
the text renderer; in particular a cell of 40 `a`s reaches the renderer as
exactly 27 `a`s followed by the marker. -/
theorem c4_cell_truncation :
    (∀ (o : OrderWithStatus) (k : ColKey), 30 < (cellRaw o k).length →
      truncateCell (cellRaw o k) = ((cellRaw o k).data.take 27).asString ++ "...")
    ∧ (∀ o : OrderWithStatus, o.name = some (String.mk (List.replicate 40 'a')) →
      cellText o .name = String.mk (List.replicate 27 'a') ++ "...") := by
  constructor
  · intro o k h
    simp [truncateCell, h]
  · intro o h
    simp only [cellText, cellRaw, getField, h]
    decide

/-- C4 witness: a record whose `name` is 40 `a`s exercises both parts. -/
theorem c4_cell_truncation_witness :
    (30 < (cellRaw { name := some (String.mk (List.replicate 40 'a')) } ColKey.name).length ∧
      truncateCell (cellRaw { name := some (String.mk (List.replicate 40 'a')) } ColKey.name)
        = ((cellRaw { name := some (String.mk (List.replicate 40 'a')) } ColKey.name).data.take 27).asString ++ "...")
    ∧ cellText { name := some (String.mk (List.replicate 40 'a')) } ColKey.name
        = String.mk (List.replicate 27 'a') ++ "..." :=
  ⟨⟨by decide,
    c4_cell_truncation.1 { name := some (String.mk (List.replicate 40 'a')) } ColKey.name (by decide)⟩,
   c4_cell_truncation.2 { name := some (String.mk (List.replicate 40 'a')) } rfl⟩

/-- C6: the receipt's payment section always shows the total line
(`"Total Amount: OMR "` followed by the stored total, defaulting to
`"0.000"`), and shows each of the advance-payment, balance-payment and
discount lines exactly when the stored field is present and parses to a
value strictly greater than zero, rendering the stored string verbatim
after the `"OMR "` prefix.  (`advancePayment = "0.000"` parses to `0`, so
its line is omitted; `"12.500"` parses to `12.5 > 0` and is rendered
verbatim.) -/
theorem c6_payment_section (split : Split) (fonts : List FontAsset)
    (o : OrderWithStatus) (y0 : ℤ) :
    textStrings (receiptBody split fonts o y0) =
      [receiptHeaderNoText o, "Date: " ++ jsOr o.date "N/A",
       "Time: " ++ jsOr o.time "N/A", "Customer Information:",
       "Name: " ++ jsOr o.name "N/A", "Phone: " ++ jsOr o.phoneNumber "N/A"]
      ++ (if jsTruthy o.address then ["Address: " ++ o.address.getD ""] else [])
      ++ (if jsTruthy o.location then ["Location: " ++ o.location.getD ""] else [])
      ++ ["Order Details:", receiptDetailsText split o, "Delivery Information:",
          "Type: " ++ jsOr o.deliveryType "N/A", "Payment Information:",
          "Total Amount: OMR " ++ jsOr o.totalPayment "0.000"]
      ++ (if jsTruthy o.paymentType then
            ["Payment Type: " ++ jsToUpperCase (o.paymentType.getD "")] else [])
      ++ (if paymentLineShown o.advancePayment then
            ["Advance Payment: OMR " ++ o.advancePayment.getD ""] else [])
      ++ (if paymentLineShown o.balancePayment then
            ["Balance Payment: OMR " ++ o.balancePayment.getD ""] else [])
      ++ (if paymentLineShown o.discount then
            ["Discount: OMR " ++ o.discount.getD ""] else [])
      ++ ["Thank you for your order!"]
    ∧ (∀ s : String,
        paymentLineShown (some s) = true ↔
          ∃ v, jsParseFloat s = some v ∧ 0 < v.toRat)
    ∧ paymentLineShown none = false
    ∧ paymentLineShown (some "0.000") = false
    ∧ paymentLineShown (some "12.500") = true := by
  refine ⟨receiptBody_textStrings split fonts o y0, ?_, rfl, by decide, by decide⟩
  intro s
  constructor
  · intro h
    simp only [paymentLineShown, Bool.and_eq_true] at h
    rcases h with ⟨-, h⟩
    rcases hq : jsParseFloat s with - | v
    · rw [hq] at h
      exact absurd h (by simp)
    · rw [hq] at h
      exact ⟨v, rfl, (JsNumber.toRat_pos v).mpr (by simpa using h)⟩
  · rintro ⟨v, hq, hpos⟩
    have hnum := (JsNumber.toRat_pos v).mp hpos
    have hne : s ≠ "" := by
      intro he
      rw [he, show jsParseFloat "" = none from by decide] at hq
      exact Option.noConfusion hq
    simp [paymentLineShown, hq, hne, hnum]

lemma mem_of_mem_dropWhile {p : Char → Bool} {c : Char} :
    ∀ {l : List Char}, c ∈ l.dropWhile p → c ∈ l := by
  intro l
  induction l with
  | nil => simp
  | cons a as ih =>
    intro h
    rw [List.dropWhile_cons] at h
    by_cases hp : p a
    · simp only [hp, if_true] at h
      exact List.mem_cons_of_mem a (ih h)
    · simp only [hp, if_false] at h
      exact h

lemma data_asString (l : List Char) : (l.asString).data = l := rfl

lemma textStrings_cons (o : Op) (l : List Op) :
    textStrings (o :: l)
      = (match o with | .text s _ _ _ => [s] | _ => []) ++ textStrings l := by
  cases o <;> simp [textStrings]

/-- The order-details line is among the receipt's text operations, for any
image outcome. -/
lemma receiptDetails_mem (split : Split) (fonts : List FontAsset)
    (img : Except String String) (o : OrderWithStatus) :
    receiptDetailsText split o ∈
      textStrings (getOps (generateOrderReceiptPDF split fonts img o)) := by
  cases img <;>
    simp [generateOrderReceiptPDF, getOps, textStrings_append, textStrings_cons,
      receiptBody_textStrings]

/-- C1 (amended): the receipt renders the order-details free text through
the renderer's page-width pass (`maxWidth = pageWidth - 2 * margin`): when
the width-split measures the text as a single line equal to the text, the
full text appears in the document; when it measures more than one line,
only the first measured line followed by `"..."` appears — the details are
truncated, not wrapped. -/
theorem c1_details_first_line_only (split : Split) (fonts : List FontAsset)
    (img : Except String String) (o : OrderWithStatus) (d : String)
    (hd : o.orderDetails = some d) (hne : d ≠ "") :
    (split d (pageWidthP - 2 * pdfMargin) = [d] →
      d ∈ textStrings (getOps (generateOrderReceiptPDF split fonts img o)))
    ∧ (∀ l1 l2 ls, split d (pageWidthP - 2 * pdfMargin) = l1 :: l2 :: ls →
        receiptDetailsText split o = l1 ++ "..."
        ∧ (l1 ++ "...") ∈
            textStrings (getOps (generateOrderReceiptPDF split fonts img o))) := by
  have hW : (pageWidthP - 2 * pdfMargin) ≠ 0 := by decide
  have hdet : receiptDetailsText split o
      = truncateToWidth split d (some (pageWidthP - 2 * pdfMargin)) := by
    simp [receiptDetailsText, jsOr, hd, hne]
  constructor
  · intro hl
    have h1 : receiptDetailsText split o = d := by
      rw [hdet]
      simp [truncateToWidth, hW, hl]
    exact h1 ▸ receiptDetails_mem split fonts img o
  · intro l1 l2 ls hl
    have h1 : receiptDetailsText split o = l1 ++ "..." := by
      rw [hdet]
      simp [truncateToWidth, hW, hl]
    exact ⟨h1, h1 ▸ receiptDetails_mem split fonts img o⟩

/-- C1 witness: with a never-wrapping measurer the single-line details text
`"hello"` appears in full. -/
theorem c1_details_first_line_only_witness :
    (c3Order.orderDetails = some "Rice" ∧ "Rice" ≠ ""
      ∧ idSplit "Rice" (pageWidthP - 2 * pdfMargin) = ["Rice"])
    ∧ "Rice" ∈ textStrings (getOps
        (generateOrderReceiptPDF idSplit [] (.error "img") c3Order)) :=
  ⟨⟨rfl, by decide, rfl⟩,
    (c1_details_first_line_only idSplit [] (.error "img") c3Order "Rice"
      rfl (by decide)).1 rfl⟩

/-- C1 counterexample: with a measurer that splits the 20-character details
text into two lines, the receipt contains the truncated line
`"abcdefghij..."` and the full details text appears nowhere in the
document — neither as one text operation nor across the concatenated text
of the whole document — refuting "no truncation, the full order-details
text appears regardless of length". -/
theorem c1_full_details_counterexample :
    "abcdefghij..." ∈ textStrings (getOps
        (generateOrderReceiptPDF split10 [] (.error "no image") c1Order))
    ∧ "abcdefghij0123456789" ∉ textStrings (getOps
        (generateOrderReceiptPDF split10 [] (.error "no image") c1Order))
    ∧ hasRun "abcdefghij0123456789".data
        (String.join (textStrings (getOps
          (generateOrderReceiptPDF split10 [] (.error "no image") c1Order)))).data
      = false := by
  refine ⟨by decide, by decide, by decide⟩

/-- C8 (amended): sanitization exists only at the report's table-cell
layer: every character of a sanitized cell is in printable ASCII or the
Arabic block (each out-of-range code point is replaced by a space and the
ends are trimmed), and the string every table cell hands the renderer is
the sanitized one; the receipt's text renderer itself passes text through
with no such filtering. -/
theorem c8_sanitization_only_for_cells :
    (∀ (s : String) (c : Char), c ∈ (sanitizeCell s).data →
      inPrintableOrArabic c = true)
    ∧ (∀ (o : OrderWithStatus) (k : ColKey) (c : Char),
        c ∈ (cellText o k).data → inPrintableOrArabic c = true)
    ∧ (∀ (split : Split) (fonts : List FontAsset) (t : String) (x y : ℤ)
        (opts : TextOptions),
        textStrings (addTextReceipt split fonts t x y opts).1
          = [truncateToWidth split t opts.maxWidth]) := by
  have h1 : ∀ (s : String) (c : Char), c ∈ (sanitizeCell s).data →
      inPrintableOrArabic c = true := by
    intro s c hc
    simp only [sanitizeCell, jsTrim, data_asString] at hc
    rw [List.mem_reverse] at hc
    have hc2 := mem_of_mem_dropWhile hc
    rw [List.mem_reverse] at hc2
    have hc3 := mem_of_mem_dropWhile hc2
    rcases List.mem_map.mp hc3 with ⟨a, -, rfl⟩
    by_cases h : inPrintableOrArabic a = true
    · simp [h]
    · rw [if_neg h]
      decide
  exact ⟨h1, fun o k c hc => h1 _ c hc,
    fun split fonts t x y opts => textStrings_addTextReceipt split fonts t x y opts⟩

/-- C8 witness for the amended sanitization property. -/
theorem c8_sanitization_only_for_cells_witness :
    'a' ∈ (sanitizeCell "a\u00e9b").data ∧ inPrintableOrArabic 'a' = true :=
  ⟨by decide, c8_sanitization_only_for_cells.1 "a\u00e9b" 'a' (by decide)⟩

/-- C8 counterexample: the receipt for a record whose name contains `é`
writes a text operation that still contains a code point outside printable
ASCII and outside the Arabic block — nothing is stripped on the way from
the receipt layout to the final write. -/
theorem c8_unsanitized_write_counterexample :
    ((getOps (generateOrderReceiptPDF idSplit [] (.error "no image") c8Order)).any
      fun op =>
        match op with
        | .text s _ _ _ => s.data.any fun c => !inPrintableOrArabic c
        | _ => false) = true := by
  decide

/-- C9: when the header-image load fails, `generateOrderReceiptPDF`
catches the failure, draws the centered bold `RECEIPT` text title instead,
continues with the full receipt body (the fixed footer is still emitted),
and returns a document rather than propagating the error. -/
theorem c9_image_failure_fallback (split : Split) (fonts : List FontAsset)
    (e : String) (o : OrderWithStatus) :
    generateOrderReceiptPDF split fonts (.error e) o
      = .ok (arabicFontSetupOps fonts ++
          (addTextReceipt split fonts "RECEIPT" (pageWidthP / 2) pdfMargin
            { align := some .center, fontSize := some 20,
              fontStyle := some .bold }).1 ++
          receiptBody split fonts o (pdfMargin + 15 * mm))
    ∧ "RECEIPT" ∈ textStrings (getOps
        (generateOrderReceiptPDF split fonts (.error e) o))
    ∧ "Thank you for your order!" ∈ textStrings (getOps
        (generateOrderReceiptPDF split fonts (.error e) o)) := by
  refine ⟨rfl, ?_, ?_⟩
  · simp [generateOrderReceiptPDF, getOps, textStrings_append,
      textStrings_addTextReceipt, truncateToWidth_none]
  · simp [generateOrderReceiptPDF, getOps, textStrings_append,
      textStrings_addTextReceipt, truncateToWidth_none, receiptBody_textStrings]

/-- C10: with `receiptNo` absent, the report's receipt-number cell and the
receipt header line fall back to `orderId` and only then to `N/A`; every
other absent column value falls back directly to `N/A`; the receipt file
name uses the chain `receiptNo` then `orderId` then the literal
`"receipt"`. -/
theorem c10_fallback_chains (o : OrderWithStatus) (h : o.receiptNo = none) :
    cellRaw o .receiptNo = jsOr o.orderId "N/A"
    ∧ receiptHeaderNoText o = "Receipt No: " ++ jsOr o.orderId "N/A"
    ∧ (∀ k, k ≠ ColKey.receiptNo → getField o k = none → cellRaw o k = "N/A")
    ∧ receiptFileName o = "receipt-" ++ jsOr o.orderId "receipt" ++ "-" ++
        sanitizeReceiptName (jsOr o.name "customer") ++ ".pdf" := by
  refine ⟨?_, ?_, ?_, ?_⟩
  · simp [cellRaw, jsOr, h]
  · simp [receiptHeaderNoText, jsOr, h]
  · intro k hk hf
    cases k <;> simp_all [cellRaw, getField, jsOr]
  · simp [receiptFileName, jsOr, h]

/-- C10 witness: a record with `receiptNo` absent and `orderId = "X7"`. -/
theorem c10_fallback_chains_witness :
    ({ orderId := some "X7", name := some "Bo b" } : OrderWithStatus).receiptNo = none
    ∧ (cellRaw { orderId := some "X7", name := some "Bo b" } .receiptNo
        = jsOr (some "X7") "N/A"
      ∧ receiptHeaderNoText { orderId := some "X7", name := some "Bo b" }
        = "Receipt No: " ++ jsOr (some "X7") "N/A"
      ∧ (∀ k, k ≠ ColKey.receiptNo →
          getField { orderId := some "X7", name := some "Bo b" } k = none →
          cellRaw { orderId := some "X7", name := some "Bo b" } k = "N/A")
      ∧ receiptFileName { orderId := some "X7", name := some "Bo b" }
        = "receipt-" ++ jsOr (some "X7") "receipt" ++ "-" ++
          sanitizeReceiptName (jsOr (some "Bo b") "customer") ++ ".pdf") :=
  ⟨rfl, c10_fallback_chains { orderId := some "X7", name := some "Bo b" } rfl⟩

set_option maxRecDepth 400000 in
/-- C3 (code evaluated at the failing input): for thirty records — whose
total row height far exceeds the space remaining on one page — the report
still consists of exactly one page (no `addPage` was ever issued), it
draws row text below the bottom page edge, and the cursor ends at 310 mm
on a 210 mm-high page.  The per-row `checkAndAddPage` call compares the
engine's `currentY`, which is never advanced while rows are drawn (only
the local `tableY` advances), so the insufficient-space branch never
fires. -/
theorem c3_pagination_never_fires :
    c3Report.pageCount = 1
    ∧ (c3Report.ops.any fun o =>
        match o with
        | .text _ _ y _ => decide (y > pageHeightL)
        | _ => false) = true
    ∧ c3Report.currentY = 310 * mm := by
  decide

/-- C2 witness: a concrete empty-list report contains no column-header
text. -/
theorem c2_empty_list_no_table_witness :
    "Receipt No" ∈ reportColumns.map TableColumn.header
    ∧ "Receipt No" ∉ textStrings (generateOrdersPDF idSplit [] "now"
        { title := "T", orders := [], language := .en, showSummary := false,
          logoUrl := none }).ops :=
  ⟨by decide,
    (c2_empty_list_no_table idSplit [] "now" "T" .en false none).2.2
      "Receipt No" (by decide)⟩

/-- C6 witness: the two concrete guard evaluations of the claim. -/
theorem c6_payment_section_witness :
    paymentLineShown (some "0.000") = false
    ∧ paymentLineShown (some "12.500") = true :=
  ⟨(c6_payment_section idSplit [] {} 0).2.2.2.1,
   (c6_payment_section idSplit [] {} 0).2.2.2.2⟩

end Catering
